import Mathlib

/-!
Verification of the connection-scoped registry (`src/connection/Connection.ts`).

The registry owns four append-only collections (entity metadatas, subscribers,
broadcasters, and `{metadata, repository}` pairs) and resolves one from another
by entity type.  This file embeds the class as a purely functional state
(`Connection`), translates each method body, and proves or refutes the spec's
claims about registration, lookup, lifecycle and framing.

Modelling conventions:
* TS object identity (`===` on `Function` / `EntityMetadata` objects) is
  modelled by giving each object an explicit identity component; the entity
  class key becomes an opaque `Nat` token.
* A method that can `throw` returns `Except LookupError _`.
* The asynchronous `connect` is modelled by its observable event trace
  (driver session resolution/rejection, schema creation), with the driver's
  outcome supplied as a `Bool` oracle.
-/

deriving instance DecidableEq for Except

namespace Typeorm

/-- Opaque identity token standing for the TS `Function` object used as an
entity class key (`metadata.target`, `broadcaster.entityClass`); TS compares
these with reference equality `===`. -/
abbrev EntityClass := Nat

/-- Modelled from the spec: `OrmSubscriber` (its source file is not part of
the fragment).  The registry treats subscribers as opaque observer objects;
only their identity matters, so one `Nat` identity component suffices. -/
structure OrmSubscriber where
  id : Nat
deriving DecidableEq, Repr

/-- `EntityMetadata` as `Connection.ts` sees it: an object identity (distinct
registered metadata objects are distinct values) together with its `target`
entity class.  The structural mapping info (fields, table name) is produced
externally and never inspected by the registry, so it is not modelled. -/
structure EntityMetadata where
  id : Nat
  target : EntityClass
deriving DecidableEq, Repr

/-- Modelled from the spec: `OrmBroadcaster` (its source file is not part of
the fragment).  Per the spec its constructor is
`(subscriberSequenceSnapshot, targetIdentity)` and it stores both;
`Connection.ts` reads back its `entityClass` field. -/
structure OrmBroadcaster where
  subscribers : List OrmSubscriber
  entityClass : EntityClass
deriving DecidableEq, Repr

/-- Modelled from the spec: `Repository` (its source file is not part of the
fragment).  `Connection.ts` constructs it as
`new Repository(this, metadata, broadcaster)`; the registry back-reference
carries no data any claim touches, so only the metadata and the bound
broadcaster are kept. -/
structure Repository where
  metadata : EntityMetadata
  broadcaster : OrmBroadcaster
deriving DecidableEq, Repr

/-- The registry's internal join record (interface `RepositoryAndMetadata`). -/
structure RepositoryAndMetadata where
  repository : Repository
  metadata : EntityMetadata
deriving DecidableEq, Repr

/-- Connection options; the only field this core reads is
`autoSchemaCreate`, an optional boolean (`none` models an omitted field). -/
structure ConnectionOptions where
  autoSchemaCreate : Option Bool
deriving DecidableEq, Repr

/-- The three lookup errors thrown by `Connection.ts`, each carrying the
requested entity class. -/
inductive LookupError where
  | MetadataNotFoundError (entityClass : EntityClass)
  | RepositoryNotFoundError (entityClass : EntityClass)
  | BroadcasterNotFoundError (entityClass : EntityClass)
deriving DecidableEq, Repr

/-- The mutable state of one `Connection` instance: its four collections,
the stored options (`none` before `connect` runs), and — modelled from the
spec — whether the exclusively owned driver session is established. -/
structure Connection where
  metadatas : List EntityMetadata
  subscribers : List OrmSubscriber
  broadcasters : List OrmBroadcaster
  repositoryAndMetadatas : List RepositoryAndMetadata
  options : Option ConnectionOptions
  driverSessionActive : Bool
deriving DecidableEq, Repr

/-- The `repositories` getter: `repositoryAndMetadatas.map(r => r.repository)`. -/
def Connection.repositories (c : Connection) : List Repository :=
  c.repositoryAndMetadatas.map (fun repoAndMeta => repoAndMeta.repository)

/-- `getMetadata`: first metadata whose `target` is the given entity class,
else `MetadataNotFoundError`. -/
def Connection.getMetadata (c : Connection) (entityClass : EntityClass) :
    Except LookupError EntityMetadata :=
  match c.metadatas.find? (fun metadata => metadata.target == entityClass) with
  | some metadata => .ok metadata
  | none => .error (.MetadataNotFoundError entityClass)

/-- `getRepository`: resolves the metadata via `getMetadata` (whose throw
propagates), then returns the repository of the first pair whose metadata is
identity-equal to it, else `RepositoryNotFoundError`. -/
def Connection.getRepository (c : Connection) (entityClass : EntityClass) :
    Except LookupError Repository :=
  match c.getMetadata entityClass with
  | .error e => .error e
  | .ok metadata =>
    match c.repositoryAndMetadatas.find? (fun repoMeta => repoMeta.metadata == metadata) with
    | some repoMeta => .ok repoMeta.repository
    | none => .error (.RepositoryNotFoundError entityClass)

/-- `getBroadcaster`: first broadcaster whose `entityClass` is the given
entity class, else `BroadcasterNotFoundError`. -/
def Connection.getBroadcaster (c : Connection) (entityClass : EntityClass) :
    Except LookupError OrmBroadcaster :=
  match c.broadcasters.find? (fun broadcaster => broadcaster.entityClass == entityClass) with
  | some broadcaster => .ok broadcaster
  | none => .error (.BroadcasterNotFoundError entityClass)

/-- `createBroadcasterForMetadata`: `new OrmBroadcaster(this.subscribers,
metadata.target)`.  In TS `this.subscribers` is the current array; because
`addSubscribers` reassigns `_subscribers` via `concat` instead of mutating it,
the array handed over here is never changed afterwards, which a by-value list
models exactly. -/
def Connection.createBroadcasterForMetadata (c : Connection) (metadata : EntityMetadata) :
    OrmBroadcaster :=
  { subscribers := c.subscribers, entityClass := metadata.target }

/-- `createRepoMeta`: builds one `{metadata, repository}` pair; the repository
is bound to `this.getBroadcaster(metadata.target)`, whose throw would
propagate. -/
def Connection.createRepoMeta (c : Connection) (metadata : EntityMetadata) :
    Except LookupError RepositoryAndMetadata :=
  (c.getBroadcaster metadata.target).map fun broadcaster =>
    { metadata := metadata,
      repository := { metadata := metadata, broadcaster := broadcaster } }

/-- TS `Array.prototype.map` with a callback that may throw: elements are
processed left to right and the first thrown error aborts the whole map. -/
def mapExcept (f : α → Except ε β) : List α → Except ε (List β)
  | [] => .ok []
  | a :: as =>
    match f a with
    | .error e => .error e
    | .ok b =>
      match mapExcept f as with
      | .error e => .error e
      | .ok bs => .ok (b :: bs)

/-- `addMetadatas`: sequentially reassigns `_metadatas`, then `_broadcasters`
(one fresh broadcaster per new entry, reading the current subscriber list),
then `repositoryAndMetadatas` (one pair per new entry).  A throw escaping the
pair-building map would leave the first two reassignments in place, so the
result carries the state reached together with the error, if any. -/
def Connection.addMetadatas (c : Connection) (metadatas : List EntityMetadata) :
    Connection × Option LookupError :=
  let c₁ : Connection := { c with metadatas := c.metadatas ++ metadatas }
  let c₂ : Connection :=
    { c₁ with broadcasters := c₁.broadcasters ++ metadatas.map c₁.createBroadcasterForMetadata }
  match mapExcept c₂.createRepoMeta metadatas with
  | .ok repoMetas =>
    ({ c₂ with repositoryAndMetadatas := c₂.repositoryAndMetadatas ++ repoMetas }, none)
  | .error e => (c₂, some e)

/-- `addSubscribers`: `_subscribers = _subscribers.concat(subscribers)`. -/
def Connection.addSubscribers (c : Connection) (subscribers : List OrmSubscriber) : Connection :=
  { c with subscribers := c.subscribers ++ subscribers }

/-- Observable events of one `connect` call, in order. -/
inductive ConnectEvent where
  | driverSessionResolved
  | driverSessionRejected
  | schemaCreated
deriving DecidableEq, Repr

/-- The event trace of `connect(options)` when the driver session attempt has
the given outcome: the `.then` continuation runs only after the driver promise
resolves, and it calls `schemaCreator.create()` exactly when
`options.autoSchemaCreate === true`. -/
def connectEvents (options : ConnectionOptions) (driverOk : Bool) : List ConnectEvent :=
  if driverOk then
    ConnectEvent.driverSessionResolved ::
      (if options.autoSchemaCreate == some true then [ConnectEvent.schemaCreated] else [])
  else
    [ConnectEvent.driverSessionRejected]

/-- `connect(options)`: stores the options (before awaiting the driver), asks
the driver to establish a session and, on success only, possibly creates the
schema.  The driver session flag is modelled from the spec (the driver is an
external collaborator). -/
def Connection.connect (c : Connection) (options : ConnectionOptions) (driverOk : Bool) :
    Connection × List ConnectEvent :=
  ({ c with options := some options,
            driverSessionActive := if driverOk then true else c.driverSessionActive },
   connectEvents options driverOk)

/-- `close()`: `this._driver.disconnect()` — tears down the driver session and
touches nothing else. -/
def Connection.close (c : Connection) : Connection :=
  { c with driverSessionActive := false }

/-- The state of a freshly constructed `Connection`: every collection starts
as `[]`, `_options` is unset, no driver session is established yet. -/
def initialConnection : Connection :=
  { metadatas := [], subscribers := [], broadcasters := [],
    repositoryAndMetadatas := [], options := none, driverSessionActive := false }

/-- One public mutating operation on the registry. -/
inductive Op where
  | connect (options : ConnectionOptions) (driverOk : Bool)
  | close
  | addMetadatas (metadatas : List EntityMetadata)
  | addSubscribers (subscribers : List OrmSubscriber)
deriving DecidableEq, Repr

/-- Apply one public operation to the registry state. -/
def applyOp (c : Connection) : Op → Connection
  | .connect options driverOk => (c.connect options driverOk).1
  | .close => c.close
  | .addMetadatas ms => (c.addMetadatas ms).1
  | .addSubscribers ss => c.addSubscribers ss

/-- The registry state reached from construction by a sequence of public
operations; every reachable state is of this form. -/
def run (ops : List Op) : Connection :=
  ops.foldl applyOp initialConnection

/-- `getMetadata` in state-passing form: the method body reads
`this.metadatas` and either returns or throws; it performs no assignment, so
the outgoing state is the incoming one. -/
def Connection.getMetadataS (c : Connection) (entityClass : EntityClass) :
    Except LookupError EntityMetadata × Connection :=
  (match c.metadatas.find? (fun metadata => metadata.target == entityClass) with
   | some metadata => .ok metadata
   | none => .error (.MetadataNotFoundError entityClass), c)

/-- `getRepository` in state-passing form: two reads, no assignment. -/
def Connection.getRepositoryS (c : Connection) (entityClass : EntityClass) :
    Except LookupError Repository × Connection :=
  (match c.getMetadata entityClass with
   | .error e => .error e
   | .ok metadata =>
     match c.repositoryAndMetadatas.find? (fun repoMeta => repoMeta.metadata == metadata) with
     | some repoMeta => .ok repoMeta.repository
     | none => .error (.RepositoryNotFoundError entityClass), c)

/-- `getBroadcaster` in state-passing form: one read, no assignment. -/
def Connection.getBroadcasterS (c : Connection) (entityClass : EntityClass) :
    Except LookupError OrmBroadcaster × Connection :=
  (match c.broadcasters.find? (fun broadcaster => broadcaster.entityClass == entityClass) with
   | some broadcaster => .ok broadcaster
   | none => .error (.BroadcasterNotFoundError entityClass), c)

end Typeorm

namespace Typeorm

/-- A junk broadcaster used only as a `getD` default inside closed-form
statements whose side conditions guarantee the underlying lookup succeeds. -/
def defaultBroadcaster : OrmBroadcaster := { subscribers := [], entityClass := 0 }

/-- The pair `createRepoMeta` builds in a state where its broadcaster lookup
succeeds, written with a total lookup. -/
def pairFor (c : Connection) (metadata : EntityMetadata) : RepositoryAndMetadata :=
  { metadata := metadata,
    repository :=
      { metadata := metadata,
        broadcaster :=
          (c.broadcasters.find?
            (fun broadcaster => broadcaster.entityClass == metadata.target)).getD
            defaultBroadcaster } }

/-- The intermediate state of `addMetadatas` after `_metadatas` and
`_broadcasters` have been reassigned but before the pairs are built. -/
def midState (c : Connection) (ms : List EntityMetadata) : Connection :=
  { c with
      metadatas := c.metadatas ++ ms,
      broadcasters := c.broadcasters ++
        ms.map (fun m => { subscribers := c.subscribers, entityClass := m.target }) }

lemma mapExcept_eq_ok_of_forall {α β ε : Type} {f : α → Except ε β} {g : α → β} :
    ∀ (as : List α), (∀ a ∈ as, f a = .ok (g a)) → mapExcept f as = .ok (as.map g)
  | [], _ => rfl
  | a :: as, h => by
    have ha := h a (List.mem_cons_self a as)
    have hrest := mapExcept_eq_ok_of_forall as (fun x hx => h x (List.mem_cons_of_mem a hx))
    simp [mapExcept, ha, hrest]

lemma createRepoMeta_eq_ok {c : Connection} {m : EntityMetadata}
    (h : (c.broadcasters.find? (fun b => b.entityClass == m.target)).isSome) :
    c.createRepoMeta m = .ok (pairFor c m) := by
  rcases Option.isSome_iff_exists.mp h with ⟨b, hb⟩
  simp [Connection.createRepoMeta, Connection.getBroadcaster, pairFor, hb, Except.map]

lemma find?_broadcaster_isSome (c : Connection) (ms : List EntityMetadata) {m : EntityMetadata}
    (hm : m ∈ ms) :
    (((midState c ms).broadcasters).find? (fun b => b.entityClass == m.target)).isSome := by
  apply List.find?_isSome.mpr
  refine ⟨{ subscribers := c.subscribers, entityClass := m.target }, ?_, by simp⟩
  simp only [midState, List.mem_append, List.mem_map]
  exact Or.inr ⟨m, hm, rfl⟩

/-- Closed form of `addMetadatas`: it never throws, and the new pairs are
exactly `pairFor` of the intermediate state. -/
lemma Connection.addMetadatas_eq (c : Connection) (ms : List EntityMetadata) :
    c.addMetadatas ms =
      ({ midState c ms with
          repositoryAndMetadatas :=
            c.repositoryAndMetadatas ++ ms.map (pairFor (midState c ms)) }, none) := by
  have hstep : c.addMetadatas ms =
      (match mapExcept (midState c ms).createRepoMeta ms with
        | .ok repoMetas =>
          ({ midState c ms with
              repositoryAndMetadatas := c.repositoryAndMetadatas ++ repoMetas }, none)
        | .error e => (midState c ms, some e)) := rfl
  have hmap : mapExcept (midState c ms).createRepoMeta ms =
      .ok (ms.map (pairFor (midState c ms))) :=
    mapExcept_eq_ok_of_forall ms (fun m hm =>
      createRepoMeta_eq_ok (find?_broadcaster_isSome c ms hm))
  rw [hstep, hmap]

/-- The registry alignment invariant: the pair sequence mirrors the metadata
sequence and the broadcaster sequence mirrors its targets, index by index. -/
def Inv (c : Connection) : Prop :=
  c.repositoryAndMetadatas.map (fun rm => rm.metadata) = c.metadatas ∧
  c.broadcasters.map (fun b => b.entityClass) = c.metadatas.map (fun m => m.target)

lemma inv_initial : Inv initialConnection := ⟨rfl, rfl⟩

lemma inv_applyOp {c : Connection} (h : Inv c) (op : Op) : Inv (applyOp c op) := by
  rcases op with ⟨options, driverOk⟩ | _ | ms | ss
  · exact h
  · exact h
  · obtain ⟨h₁, h₂⟩ := h
    show Inv (c.addMetadatas ms).1
    rw [Connection.addMetadatas_eq]
    constructor
    · simp [midState, pairFor, List.map_map, Function.comp_def, h₁]
    · simp [midState, List.map_map, Function.comp_def, h₂]
  · exact h

lemma inv_foldl {c : Connection} (h : Inv c) (ops : List Op) : Inv (ops.foldl applyOp c) := by
  induction ops generalizing c with
  | nil => exact h
  | cons op ops ih => exact ih (inv_applyOp h op)

lemma inv_run (ops : List Op) : Inv (run ops) := inv_foldl inv_initial ops

/-- Every metadata of a reachable state was passed to some `addMetadatas`. -/
lemma mem_metadatas_foldl {m : EntityMetadata} :
    ∀ (ops : List Op) (c : Connection), m ∈ (ops.foldl applyOp c).metadatas →
      m ∈ c.metadatas ∨ ∃ ms, Op.addMetadatas ms ∈ ops ∧ m ∈ ms
  | [], _, h => Or.inl h
  | op :: ops, c, h => by
    rcases mem_metadatas_foldl ops (applyOp c op) h with h' | ⟨ms, hms, hm⟩
    · rcases op with ⟨options, driverOk⟩ | _ | ms | ss
      · exact Or.inl h'
      · exact Or.inl h'
      · rw [show applyOp c (Op.addMetadatas ms) = (c.addMetadatas ms).1 from rfl,
          Connection.addMetadatas_eq] at h'
        simp only [midState, List.mem_append] at h'
        rcases h' with h' | h'
        · exact Or.inl h'
        · exact Or.inr ⟨ms, List.mem_cons_self _ _, h'⟩
      · exact Or.inl h'
    · exact Or.inr ⟨ms, List.mem_cons_of_mem _ hms, hm⟩

lemma mem_metadatas_run {m : EntityMetadata} {ops : List Op}
    (h : m ∈ (run ops).metadatas) : ∃ ms, Op.addMetadatas ms ∈ ops ∧ m ∈ ms := by
  rcases mem_metadatas_foldl ops initialConnection h with h' | h'
  · exact absurd h' (List.not_mem_nil m)
  · exact h'

lemma broadcasters_fresh_of_metadatas_fresh {c : Connection} (hInv : Inv c) {t : EntityClass}
    (h : ∀ m ∈ c.metadatas, m.target ≠ t) :
    ∀ b ∈ c.broadcasters, b.entityClass ≠ t := by
  intro b hb
  have hmem : b.entityClass ∈ c.broadcasters.map (fun b => b.entityClass) :=
    List.mem_map_of_mem _ hb
  rw [hInv.2] at hmem
  rcases List.mem_map.mp hmem with ⟨m, hm, hmt⟩
  rw [← hmt]
  exact h m hm

lemma pairs_fresh_of_metadatas_fresh {c : Connection} (hInv : Inv c) {t : EntityClass}
    (h : ∀ m ∈ c.metadatas, m.target ≠ t) :
    ∀ rm ∈ c.repositoryAndMetadatas, rm.metadata.target ≠ t := by
  intro rm hrm
  have hmem : rm.metadata ∈ c.repositoryAndMetadatas.map (fun rm => rm.metadata) :=
    List.mem_map_of_mem _ hrm
  rw [hInv.1] at hmem
  exact h _ hmem

/-- `find?` returns `some a` exactly when `a` is the first element
satisfying the predicate. -/
lemma find?_eq_some_iff_split {α : Type} (p : α → Bool) (l : List α) (a : α) :
    l.find? p = some a ↔
      ∃ l₁ l₂, l = l₁ ++ a :: l₂ ∧ p a = true ∧ ∀ x ∈ l₁, p x = false := by
  induction l with
  | nil => simp
  | cons b l ih =>
    by_cases hb : p b = true
    · rw [List.find?_cons_of_pos _ hb]
      constructor
      · intro h
        injection h with h
        subst h
        exact ⟨[], l, rfl, hb, by simp⟩
      · rintro ⟨l₁, l₂, heq, hpa, hl₁⟩
        cases l₁ with
        | nil =>
          simp only [List.nil_append, List.cons.injEq] at heq
          rw [heq.1]
        | cons y l₁ =>
          injection heq with h1 h2
          subst h1
          exact absurd hb (by simpa using hl₁ b (List.mem_cons_self _ _))
    · rw [List.find?_cons_of_neg _ hb, ih]
      constructor
      · rintro ⟨l₁, l₂, rfl, hpa, hl₁⟩
        refine ⟨b :: l₁, l₂, rfl, hpa, ?_⟩
        intro x hx
        rcases List.mem_cons.mp hx with rfl | hx
        · simpa using hb
        · exact hl₁ x hx
      · rintro ⟨l₁, l₂, heq, hpa, hl₁⟩
        cases l₁ with
        | nil =>
          simp only [List.nil_append, List.cons.injEq] at heq
          rcases heq with ⟨rfl, rfl⟩
          exact absurd hpa hb
        | cons y l₁ =>
          injection heq with h1 h2
          subst h1
          subst h2
          exact ⟨l₁, l₂, rfl, hpa, fun x hx => hl₁ x (List.mem_cons_of_mem _ hx)⟩

end Typeorm

namespace Typeorm

lemma find?_broadcasters_none {bs : List OrmBroadcaster} {t : EntityClass}
    (h : ∀ b ∈ bs, b.entityClass ≠ t) :
    bs.find? (fun b => b.entityClass == t) = none :=
  List.find?_eq_none.mpr (fun b hb => by simpa using h b hb)

lemma find?_metadatas_none {msl : List EntityMetadata} {t : EntityClass}
    (h : ∀ m ∈ msl, m.target ≠ t) :
    msl.find? (fun m => m.target == t) = none :=
  List.find?_eq_none.mpr (fun m hm => by simpa using h m hm)

lemma find?_pairs_none {ps : List RepositoryAndMetadata} {M : EntityMetadata}
    (h : ∀ rm ∈ ps, rm.metadata ≠ M) :
    ps.find? (fun rm => rm.metadata == M) = none :=
  List.find?_eq_none.mpr (fun rm hrm => by simpa using h rm hrm)

/-- `addMetadatas [M]` on a state with no broadcaster already bound to
`M.target`: the single new pair is bound to the freshly created broadcaster,
which carries the subscriber list current at the call. -/
lemma Connection.addMetadatas_singleton_fresh (c : Connection) (M : EntityMetadata)
    (h : ∀ b ∈ c.broadcasters, b.entityClass ≠ M.target) :
    (c.addMetadatas [M]).1 =
      { c with
          metadatas := c.metadatas ++ [M],
          broadcasters := c.broadcasters ++
            [{ subscribers := c.subscribers, entityClass := M.target }],
          repositoryAndMetadatas := c.repositoryAndMetadatas ++
            [{ repository :=
                 { metadata := M,
                   broadcaster := { subscribers := c.subscribers, entityClass := M.target } },
               metadata := M }] } := by
  rw [Connection.addMetadatas_eq]
  have hnone := find?_broadcasters_none h
  simp [midState, pairFor, List.find?_append, hnone, List.find?_cons]

lemma getMetadata_eq_ok_iff (c : Connection) (t : EntityClass) (m : EntityMetadata) :
    c.getMetadata t = .ok m ↔
      c.metadatas.find? (fun x => x.target == t) = some m := by
  unfold Connection.getMetadata
  cases h : c.metadatas.find? (fun x => x.target == t) <;> simp [h]

lemma getBroadcaster_eq_ok_iff (c : Connection) (t : EntityClass) (b : OrmBroadcaster) :
    c.getBroadcaster t = .ok b ↔
      c.broadcasters.find? (fun x => x.entityClass == t) = some b := by
  unfold Connection.getBroadcaster
  cases h : c.broadcasters.find? (fun x => x.entityClass == t) <;> simp [h]

lemma getRepository_eq_ok_iff (c : Connection) (t : EntityClass) (r : Repository) :
    c.getRepository t = .ok r ↔
      ∃ m, c.getMetadata t = .ok m ∧
        ∃ rm, c.repositoryAndMetadatas.find? (fun x => x.metadata == m) = some rm ∧
          rm.repository = r := by
  unfold Connection.getRepository
  cases hm : c.getMetadata t with
  | error e => simp [hm]
  | ok m₀ =>
    cases hf : c.repositoryAndMetadatas.find? (fun x => x.metadata == m₀) <;>
      simp [hm, hf]

end Typeorm

namespace Typeorm

/-- C10: for every registry state, `close()` tears down only the driver
session and leaves the metadata, subscriber, broadcaster and
`{metadata, repository}` pair sequences (and the stored options) unchanged. -/
theorem close_preserves_registry_state (c : Connection) :
    c.close.metadatas = c.metadatas ∧
    c.close.subscribers = c.subscribers ∧
    c.close.broadcasters = c.broadcasters ∧
    c.close.repositoryAndMetadatas = c.repositoryAndMetadatas ∧
    c.close.repositories = c.repositories ∧
    c.close.options = c.options ∧
    c.close.driverSessionActive = false :=
  ⟨rfl, rfl, rfl, rfl, rfl, rfl, rfl⟩

/-- Witness for C10 at a concrete state. -/
theorem close_preserves_registry_state_witness :
    initialConnection.close.metadatas = initialConnection.metadatas ∧
    initialConnection.close.subscribers = initialConnection.subscribers ∧
    initialConnection.close.broadcasters = initialConnection.broadcasters ∧
    initialConnection.close.repositoryAndMetadatas =
      initialConnection.repositoryAndMetadatas ∧
    initialConnection.close.repositories = initialConnection.repositories ∧
    initialConnection.close.options = initialConnection.options ∧
    initialConnection.close.driverSessionActive = false :=
  close_preserves_registry_state initialConnection

/-- C6: `connect(options)` triggers schema creation exactly when the driver
session resolves successfully and `options.autoSchemaCreate === true`, and
whenever schema creation occurs it comes strictly after the driver session
resolution in the event trace. -/
theorem connect_schema_creation_ordering (c : Connection) (options : ConnectionOptions)
    (driverOk : Bool) :
    (ConnectEvent.schemaCreated ∈ (c.connect options driverOk).2 ↔
      driverOk = true ∧ options.autoSchemaCreate = some true) ∧
    (ConnectEvent.schemaCreated ∈ (c.connect options driverOk).2 →
      (c.connect options driverOk).2 =
        [ConnectEvent.driverSessionResolved, ConnectEvent.schemaCreated]) := by
  rcases options with ⟨a⟩
  rcases a with _ | b
  · cases driverOk <;> simp [Connection.connect, connectEvents]
  · cases b <;> cases driverOk <;> simp [Connection.connect, connectEvents]

/-- Witness for C6 at concrete options with `autoSchemaCreate := some true`
and a successful driver session. -/
theorem connect_schema_creation_ordering_witness :
    (ConnectEvent.schemaCreated ∈
        (initialConnection.connect { autoSchemaCreate := some true } true).2 ↔
      true = true ∧
        ({ autoSchemaCreate := some true } : ConnectionOptions).autoSchemaCreate =
          some true) ∧
    (ConnectEvent.schemaCreated ∈
        (initialConnection.connect { autoSchemaCreate := some true } true).2 →
      (initialConnection.connect { autoSchemaCreate := some true } true).2 =
        [ConnectEvent.driverSessionResolved, ConnectEvent.schemaCreated]) :=
  connect_schema_creation_ordering initialConnection { autoSchemaCreate := some true } true

/-- C1 (amended): for every entity type never passed to `addMetadatas`,
`getMetadata` fails with `MetadataNotFoundError` and `getBroadcaster` with
`BroadcasterNotFoundError`, each carrying that type; `getRepository` fails
with the `MetadataNotFoundError` propagated from its internal `getMetadata`
call (not with `RepositoryNotFoundError`). -/
theorem lookup_unregistered_type_errors (ops : List Op) (t : EntityClass)
    (h : ∀ ms, Op.addMetadatas ms ∈ ops → ∀ m ∈ ms, m.target ≠ t) :
    (run ops).getMetadata t = .error (.MetadataNotFoundError t) ∧
    (run ops).getBroadcaster t = .error (.BroadcasterNotFoundError t) ∧
    (run ops).getRepository t = .error (.MetadataNotFoundError t) := by
  have hm : ∀ m ∈ (run ops).metadatas, m.target ≠ t := by
    intro m hmem
    rcases mem_metadatas_run hmem with ⟨ms, hops, hin⟩
    exact h ms hops m hin
  have hb := broadcasters_fresh_of_metadatas_fresh (inv_run ops) hm
  have hmn := find?_metadatas_none hm
  have hbn := find?_broadcasters_none hb
  refine ⟨?_, ?_, ?_⟩
  · simp [Connection.getMetadata, hmn]
  · simp [Connection.getBroadcaster, hbn]
  · simp [Connection.getRepository, Connection.getMetadata, hmn]

/-- C1 counterexample: on a registry with no metadata, `getRepository`
fails with `MetadataNotFoundError` carrying the entity type, not with
`RepositoryNotFoundError` as the claim states. -/
theorem getRepository_empty_registry_error :
    initialConnection.getRepository 0 = .error (.MetadataNotFoundError 0) ∧
    initialConnection.getRepository 0 ≠ .error (.RepositoryNotFoundError 0) :=
  ⟨rfl, by decide⟩

/-- Witness for C1 on a registry holding one unrelated metadata. -/
theorem lookup_unregistered_type_errors_witness :
    (run [Op.addMetadatas [{ id := 0, target := 7 }]]).getMetadata 5 =
        .error (.MetadataNotFoundError 5) ∧
    (run [Op.addMetadatas [{ id := 0, target := 7 }]]).getBroadcaster 5 =
        .error (.BroadcasterNotFoundError 5) ∧
    (run [Op.addMetadatas [{ id := 0, target := 7 }]]).getRepository 5 =
        .error (.MetadataNotFoundError 5) :=
  lookup_unregistered_type_errors [Op.addMetadatas [{ id := 0, target := 7 }]] 5
    (by
      intro ms hms m hm
      rw [List.mem_singleton] at hms
      injection hms with heq
      subst heq
      rw [List.mem_singleton] at hm
      subst hm
      decide)

end Typeorm

namespace Typeorm

lemma map_getElem_eq {α β : Type} (f : α → β) (l : List α) (l' : List β)
    (h : l.map f = l') (i : Nat) (hi : i < l.length) (hi' : i < l'.length) :
    f l[i] = l'[i] := by
  subst h
  simp

/-- C8: after every sequence of public operations, the metadata, broadcaster
and `{metadata, repository}` pair sequences have equal length, the i-th
pair's metadata is the i-th metadata, and the i-th broadcaster is bound to
the i-th metadata's target. -/
theorem registry_sequences_aligned (ops : List Op) :
    (run ops).metadatas.length = (run ops).broadcasters.length ∧
    (run ops).metadatas.length = (run ops).repositoryAndMetadatas.length ∧
    (∀ i (h₁ : i < (run ops).repositoryAndMetadatas.length)
        (h₂ : i < (run ops).metadatas.length),
        ((run ops).repositoryAndMetadatas[i]).metadata = (run ops).metadatas[i]) ∧
    (∀ i (h₃ : i < (run ops).broadcasters.length)
        (h₂ : i < (run ops).metadatas.length),
        ((run ops).broadcasters[i]).entityClass = ((run ops).metadatas[i]).target) := by
  obtain ⟨h₁, h₂⟩ := inv_run ops
  refine ⟨?_, ?_, ?_, ?_⟩
  · have hlen := congrArg List.length h₂
    simpa using hlen.symm
  · have hlen := congrArg List.length h₁
    simpa using hlen.symm
  · intro i hi₁ hi₂
    exact map_getElem_eq _ _ _ h₁ i (by simpa using hi₁) hi₂
  · intro i hi₃ hi₂
    have hidx := map_getElem_eq _ _ _ h₂ i (by simpa using hi₃) (by simpa using hi₂)
    simpa using hidx

/-- Witness for C8 after one registration. -/
theorem registry_sequences_aligned_witness :
    (run [Op.addMetadatas [{ id := 0, target := 7 }]]).metadatas.length =
        (run [Op.addMetadatas [{ id := 0, target := 7 }]]).broadcasters.length ∧
    (run [Op.addMetadatas [{ id := 0, target := 7 }]]).metadatas.length =
        (run [Op.addMetadatas [{ id := 0, target := 7 }]]).repositoryAndMetadatas.length ∧
    (∀ i (h₁ : i < (run [Op.addMetadatas [{ id := 0, target := 7 }]]).repositoryAndMetadatas.length)
        (h₂ : i < (run [Op.addMetadatas [{ id := 0, target := 7 }]]).metadatas.length),
        ((run [Op.addMetadatas [{ id := 0, target := 7 }]]).repositoryAndMetadatas[i]).metadata =
          (run [Op.addMetadatas [{ id := 0, target := 7 }]]).metadatas[i]) ∧
    (∀ i (h₃ : i < (run [Op.addMetadatas [{ id := 0, target := 7 }]]).broadcasters.length)
        (h₂ : i < (run [Op.addMetadatas [{ id := 0, target := 7 }]]).metadatas.length),
        ((run [Op.addMetadatas [{ id := 0, target := 7 }]]).broadcasters[i]).entityClass =
          ((run [Op.addMetadatas [{ id := 0, target := 7 }]]).metadatas[i]).target) :=
  registry_sequences_aligned [Op.addMetadatas [{ id := 0, target := 7 }]]

/-- C7: in every reachable registry state, every entity type with registered
metadata resolves to a repository, and the `RepositoryNotFoundError` branch
of `getRepository` is unreachable for every entity type. -/
theorem getRepository_never_repositoryNotFound (ops : List Op) (t : EntityClass) :
    (∀ m, (run ops).getMetadata t = .ok m → ∃ r, (run ops).getRepository t = .ok r) ∧
    (∀ e, (run ops).getRepository t ≠ .error (.RepositoryNotFoundError e)) := by
  obtain ⟨h₁, _h₂⟩ := inv_run ops
  have key : ∀ m, (run ops).getMetadata t = .ok m →
      ∃ r, (run ops).getRepository t = .ok r := by
    intro m hm
    have hfind := (getMetadata_eq_ok_iff _ _ _).mp hm
    have hmem : m ∈ (run ops).metadatas := List.mem_of_find?_eq_some hfind
    rw [← h₁] at hmem
    rcases List.mem_map.mp hmem with ⟨rm, hrm, hrmm⟩
    have hsome : (((run ops).repositoryAndMetadatas).find?
        (fun x => x.metadata == m)).isSome :=
      List.find?_isSome.mpr ⟨rm, hrm, by simp [hrmm]⟩
    rcases Option.isSome_iff_exists.mp hsome with ⟨rm₀, hrm₀⟩
    exact ⟨rm₀.repository, (getRepository_eq_ok_iff _ _ _).mpr ⟨m, hm, rm₀, hrm₀, rfl⟩⟩
  refine ⟨key, ?_⟩
  intro e
  cases hm : (run ops).getMetadata t with
  | error e' =>
    have hrep : (run ops).getRepository t = .error e' := by
      simp [Connection.getRepository, hm]
    have he' : e' = .MetadataNotFoundError t := by
      revert hm
      unfold Connection.getMetadata
      cases hfind : ((run ops).metadatas).find? (fun x => x.target == t)
      · intro hm
        injection hm with h
        exact h.symm
      · intro hm
        exact absurd hm (by simp)
    rw [hrep, he']
    intro hcontra
    injection hcontra with h
    exact LookupError.noConfusion h
  | ok m =>
    rcases key m hm with ⟨r, hr⟩
    rw [hr]
    intro hcontra
    exact Except.noConfusion hcontra

/-- Witness for C7 on a registry holding one metadata. -/
theorem getRepository_never_repositoryNotFound_witness :
    (∀ m, (run [Op.addMetadatas [{ id := 0, target := 7 }]]).getMetadata 7 = .ok m →
      ∃ r, (run [Op.addMetadatas [{ id := 0, target := 7 }]]).getRepository 7 = .ok r) ∧
    (∀ e, (run [Op.addMetadatas [{ id := 0, target := 7 }]]).getRepository 7 ≠
      .error (.RepositoryNotFoundError e)) :=
  getRepository_never_repositoryNotFound [Op.addMetadatas [{ id := 0, target := 7 }]] 7

/-- C9: each lookup is a pure read — the state-passing forms return the
incoming state unchanged whether they return or throw, each is a
deterministic function of the state, and a successful lookup returns exactly
the first match in registration order of the respective sequence. -/
theorem lookups_pure_deterministic_first_match (c : Connection) (t : EntityClass) :
    c.getMetadataS t = (c.getMetadata t, c) ∧
    c.getRepositoryS t = (c.getRepository t, c) ∧
    c.getBroadcasterS t = (c.getBroadcaster t, c) ∧
    (∀ m, c.getMetadata t = .ok m ↔
      ∃ l₁ l₂, c.metadatas = l₁ ++ m :: l₂ ∧ m.target = t ∧ ∀ x ∈ l₁, x.target ≠ t) ∧
    (∀ b, c.getBroadcaster t = .ok b ↔
      ∃ l₁ l₂, c.broadcasters = l₁ ++ b :: l₂ ∧ b.entityClass = t ∧
        ∀ x ∈ l₁, x.entityClass ≠ t) ∧
    (∀ r, c.getRepository t = .ok r ↔
      ∃ m, c.getMetadata t = .ok m ∧
        ∃ l₁ l₂ rm, c.repositoryAndMetadatas = l₁ ++ rm :: l₂ ∧ rm.metadata = m ∧
          rm.repository = r ∧ ∀ x ∈ l₁, x.metadata ≠ m) := by
  refine ⟨rfl, rfl, rfl, ?_, ?_, ?_⟩
  · intro m
    rw [getMetadata_eq_ok_iff, find?_eq_some_iff_split]
    constructor
    · rintro ⟨l₁, l₂, heq, hpa, hl₁⟩
      exact ⟨l₁, l₂, heq, by simpa using hpa, fun x hx => by simpa using hl₁ x hx⟩
    · rintro ⟨l₁, l₂, heq, hpa, hl₁⟩
      exact ⟨l₁, l₂, heq, by simpa using hpa, fun x hx => by simpa using hl₁ x hx⟩
  · intro b
    rw [getBroadcaster_eq_ok_iff, find?_eq_some_iff_split]
    constructor
    · rintro ⟨l₁, l₂, heq, hpa, hl₁⟩
      exact ⟨l₁, l₂, heq, by simpa using hpa, fun x hx => by simpa using hl₁ x hx⟩
    · rintro ⟨l₁, l₂, heq, hpa, hl₁⟩
      exact ⟨l₁, l₂, heq, by simpa using hpa, fun x hx => by simpa using hl₁ x hx⟩
  · intro r
    rw [getRepository_eq_ok_iff]
    constructor
    · rintro ⟨m, hm, rm, hfind, hr⟩
      rcases (find?_eq_some_iff_split _ _ _).mp hfind with ⟨l₁, l₂, heq, hpa, hl₁⟩
      exact ⟨m, hm, l₁, l₂, rm, heq, by simpa using hpa, hr,
        fun x hx => by simpa using hl₁ x hx⟩
    · rintro ⟨m, hm, l₁, l₂, rm, heq, hrm, hr, hl₁⟩
      refine ⟨m, hm, rm, ?_, hr⟩
      rw [find?_eq_some_iff_split]
      exact ⟨l₁, l₂, heq, by simpa using hrm, fun x hx => by simpa using hl₁ x hx⟩

/-- Witness for C9 at a concrete registry state and entity type. -/
theorem lookups_pure_deterministic_first_match_witness :
    initialConnection.getMetadataS 0 = (initialConnection.getMetadata 0, initialConnection) ∧
    initialConnection.getRepositoryS 0 =
      (initialConnection.getRepository 0, initialConnection) ∧
    initialConnection.getBroadcasterS 0 =
      (initialConnection.getBroadcaster 0, initialConnection) ∧
    (∀ m, initialConnection.getMetadata 0 = .ok m ↔
      ∃ l₁ l₂, initialConnection.metadatas = l₁ ++ m :: l₂ ∧ m.target = 0 ∧
        ∀ x ∈ l₁, x.target ≠ 0) ∧
    (∀ b, initialConnection.getBroadcaster 0 = .ok b ↔
      ∃ l₁ l₂, initialConnection.broadcasters = l₁ ++ b :: l₂ ∧ b.entityClass = 0 ∧
        ∀ x ∈ l₁, x.entityClass ≠ 0) ∧
    (∀ r, initialConnection.getRepository 0 = .ok r ↔
      ∃ m, initialConnection.getMetadata 0 = .ok m ∧
        ∃ l₁ l₂ rm, initialConnection.repositoryAndMetadatas = l₁ ++ rm :: l₂ ∧
          rm.metadata = m ∧ rm.repository = r ∧ ∀ x ∈ l₁, x.metadata ≠ m) :=
  lookups_pure_deterministic_first_match initialConnection 0

end Typeorm

namespace Typeorm

/-- Shape of `addMetadatas [M]` on an arbitrary state: metadatas and
broadcasters are appended one entry, and exactly one pair is appended whose
metadata is `M` (its repository's broadcaster is whatever the first-match
lookup found). -/
lemma addMetadatas_singleton_shape (c : Connection) (M : EntityMetadata) :
    ∃ p, p.metadata = M ∧
      (c.addMetadatas [M]).1 =
        { c with
            metadatas := c.metadatas ++ [M],
            broadcasters := c.broadcasters ++
              [{ subscribers := c.subscribers, entityClass := M.target }],
            repositoryAndMetadatas := c.repositoryAndMetadatas ++ [p] } := by
  rw [Connection.addMetadatas_eq]
  exact ⟨pairFor (midState c [M]) M, rfl, rfl⟩

/-- C2 (amended): when `addMetadatas([M])` registers a target with no earlier
registration, `getBroadcaster(M.target)` resolves to the broadcaster whose
subscriber view is exactly the subscriber list current at that call: every
subscriber registered before the call is in the view, the view is unchanged
by later `addSubscribers` calls, and a subscriber not yet registered at the
call is not in it. -/
theorem broadcaster_snapshot_frozen (ops : List Op) (M : EntityMetadata)
    (hfresh : ∀ m ∈ (run ops).metadatas, m.target ≠ M.target) :
    (((run ops).addMetadatas [M]).1.getBroadcaster M.target =
      .ok { subscribers := (run ops).subscribers, entityClass := M.target }) ∧
    (∀ ss, ((((run ops).addMetadatas [M]).1.addSubscribers ss).getBroadcaster M.target =
      .ok { subscribers := (run ops).subscribers, entityClass := M.target })) ∧
    (∀ s ∈ (run ops).subscribers,
      s ∈ ({ subscribers := (run ops).subscribers, entityClass := M.target } :
        OrmBroadcaster).subscribers) ∧
    (∀ s, s ∉ (run ops).subscribers →
      s ∉ ({ subscribers := (run ops).subscribers, entityClass := M.target } :
        OrmBroadcaster).subscribers) := by
  have hb := broadcasters_fresh_of_metadatas_fresh (inv_run ops) hfresh
  have heq := Connection.addMetadatas_singleton_fresh (run ops) M hb
  have hget : (((run ops).addMetadatas [M]).1).getBroadcaster M.target =
      .ok { subscribers := (run ops).subscribers, entityClass := M.target } := by
    rw [heq]
    simp [Connection.getBroadcaster, List.find?_append, find?_broadcasters_none hb]
  refine ⟨hget, ?_, fun s hs => hs, fun s hs => hs⟩
  intro ss
  exact hget

/-- C2 counterexample scenario: register target `7`, then a subscriber, then
target `7` again (a duplicate). -/
def dupTargetState : Connection :=
  run [Op.addMetadatas [{ id := 0, target := 7 }],
       Op.addSubscribers [{ id := 5 }],
       Op.addMetadatas [{ id := 1, target := 7 }]]

/-- C2 counterexample: subscriber `5` is registered strictly before the call
`addMetadatas([⟨1, 7⟩])`, yet `getBroadcaster(7)` afterwards resolves to the
broadcaster of the first registration of target `7`, whose frozen view `[]`
does not contain subscriber `5`. -/
theorem broadcaster_snapshot_duplicate_target_cex :
    dupTargetState.getBroadcaster 7 =
        .ok { subscribers := [], entityClass := 7 } ∧
    ({ id := 5 } : OrmSubscriber) ∉
      ({ subscribers := [], entityClass := 7 } : OrmBroadcaster).subscribers := by
  exact ⟨by decide, by decide⟩

/-- Witness for C2 with one subscriber registered before the call. -/
theorem broadcaster_snapshot_frozen_witness :
    (((run [Op.addSubscribers [{ id := 1 }]]).addMetadatas
        [{ id := 0, target := 7 }]).1.getBroadcaster 7 =
      .ok { subscribers := (run [Op.addSubscribers [{ id := 1 }]]).subscribers,
            entityClass := 7 }) ∧
    (∀ ss, ((((run [Op.addSubscribers [{ id := 1 }]]).addMetadatas
        [{ id := 0, target := 7 }]).1.addSubscribers ss).getBroadcaster 7 =
      .ok { subscribers := (run [Op.addSubscribers [{ id := 1 }]]).subscribers,
            entityClass := 7 })) ∧
    (∀ s ∈ (run [Op.addSubscribers [{ id := 1 }]]).subscribers,
      s ∈ ({ subscribers := (run [Op.addSubscribers [{ id := 1 }]]).subscribers,
             entityClass := 7 } : OrmBroadcaster).subscribers) ∧
    (∀ s, s ∉ (run [Op.addSubscribers [{ id := 1 }]]).subscribers →
      s ∉ ({ subscribers := (run [Op.addSubscribers [{ id := 1 }]]).subscribers,
             entityClass := 7 } : OrmBroadcaster).subscribers) :=
  broadcaster_snapshot_frozen [Op.addSubscribers [{ id := 1 }]]
    { id := 0, target := 7 }
    (by
      intro m hm
      rw [show (run [Op.addSubscribers [{ id := 1 }]]).metadatas = [] from rfl] at hm
      exact absurd hm (List.not_mem_nil m))

/-- C3 counterexample: after registering a second metadata whose target `7`
is already registered, the second pair's repository is bound to the
earlier-registered broadcaster `⟨[], 7⟩`, not to the broadcaster freshly
created for that entry, which is `⟨[⟨5⟩], 7⟩` (the two differ). -/
theorem repository_binding_duplicate_target_cex :
    dupTargetState.broadcasters =
      [{ subscribers := [], entityClass := 7 },
       { subscribers := [{ id := 5 }], entityClass := 7 }] ∧
    (dupTargetState.repositoryAndMetadatas.map
        (fun rm => rm.repository.broadcaster)) =
      [{ subscribers := [], entityClass := 7 },
       { subscribers := [], entityClass := 7 }] ∧
    ({ subscribers := [], entityClass := 7 } : OrmBroadcaster) ≠
      { subscribers := [{ id := 5 }], entityClass := 7 } := by
  exact ⟨by decide, by decide, by decide⟩

/-- C3 (amended): the repository built by a call `addMetadatas([M])` is bound
to the first broadcaster of the updated broadcaster sequence whose target is
`M.target`; exactly when no earlier-registered broadcaster shares that target
is this the broadcaster freshly created for the entry in that call. -/
theorem repository_bound_to_first_matching_broadcaster (c : Connection)
    (M : EntityMetadata) :
    (∃ b, ((c.broadcasters ++
          [({ subscribers := c.subscribers, entityClass := M.target } : OrmBroadcaster)]).find?
            (fun x => x.entityClass == M.target)) = some b ∧
      (c.addMetadatas [M]).1.repositoryAndMetadatas =
        c.repositoryAndMetadatas ++
          [{ repository := { metadata := M, broadcaster := b }, metadata := M }]) ∧
    ((∀ x ∈ c.broadcasters, x.entityClass ≠ M.target) →
      (c.addMetadatas [M]).1.repositoryAndMetadatas =
        c.repositoryAndMetadatas ++
          [{ repository :=
               { metadata := M,
                 broadcaster :=
                   { subscribers := c.subscribers, entityClass := M.target } },
             metadata := M }]) := by
  constructor
  · have hsome : (((c.broadcasters ++
        [({ subscribers := c.subscribers, entityClass := M.target } : OrmBroadcaster)]).find?
          (fun x => x.entityClass == M.target))).isSome := by
      apply List.find?_isSome.mpr
      exact ⟨{ subscribers := c.subscribers, entityClass := M.target },
        List.mem_append_right _ (List.mem_singleton.mpr rfl), by simp⟩
    rcases Option.isSome_iff_exists.mp hsome with ⟨b, hbfind⟩
    refine ⟨b, hbfind, ?_⟩
    rw [Connection.addMetadatas_eq]
    have hbfind' : ((c.broadcasters.find? (fun x => x.entityClass == M.target)).or
        (some { subscribers := c.subscribers, entityClass := M.target })) = some b := by
      have h2 := hbfind
      rw [List.find?_append] at h2
      simpa using h2
    simp [midState, pairFor, hbfind']
  · intro h
    rw [Connection.addMetadatas_singleton_fresh c M h]

/-- Witness for C3 on the empty registry. -/
theorem repository_bound_to_first_matching_broadcaster_witness :
    (∃ b, ((initialConnection.broadcasters ++
          [({ subscribers := initialConnection.subscribers, entityClass := 7 } :
            OrmBroadcaster)]).find?
            (fun x => x.entityClass == 7)) = some b ∧
      (initialConnection.addMetadatas [{ id := 0, target := 7 }]).1.repositoryAndMetadatas =
        initialConnection.repositoryAndMetadatas ++
          [{ repository := { metadata := { id := 0, target := 7 }, broadcaster := b },
             metadata := { id := 0, target := 7 } }]) ∧
    ((∀ x ∈ initialConnection.broadcasters, x.entityClass ≠ 7) →
      (initialConnection.addMetadatas [{ id := 0, target := 7 }]).1.repositoryAndMetadatas =
        initialConnection.repositoryAndMetadatas ++
          [{ repository :=
               { metadata := { id := 0, target := 7 },
                 broadcaster :=
                   { subscribers := initialConnection.subscribers, entityClass := 7 } },
             metadata := { id := 0, target := 7 } }]) :=
  repository_bound_to_first_matching_broadcaster initialConnection { id := 0, target := 7 }

end Typeorm

namespace Typeorm

/-- C4 counterexample: after `addMetadatas([M])` where `M = ⟨1, 7⟩` duplicates
the already-registered target `7`, `getMetadata(M.target)` returns the
earlier metadata `⟨0, 7⟩`, which is not `M`. -/
theorem addMetadatas_duplicate_getMetadata_cex :
    (run [Op.addMetadatas [{ id := 0, target := 7 }],
          Op.addMetadatas [{ id := 1, target := 7 }]]).getMetadata 7 =
      .ok { id := 0, target := 7 } ∧
    ({ id := 0, target := 7 } : EntityMetadata) ≠ { id := 1, target := 7 } := by
  exact ⟨by decide, by decide⟩

/-- C4 (amended): after `addMetadatas([M])` on a reachable state holding no
metadata with `M`'s target, `getMetadata(M.target)` returns `M`,
`getRepository(M.target)` returns a repository whose bound broadcaster equals
the result of `getBroadcaster(M.target)`, and the metadata, broadcaster, pair
and repository sequences each grow by exactly one appended entry, leaving all
prior entries unchanged and in order. -/
theorem addMetadatas_registration_effects (ops : List Op) (M : EntityMetadata)
    (c c' : Connection) (hc : c = run ops) (hc' : c' = (c.addMetadatas [M]).1)
    (hfresh : ∀ m ∈ c.metadatas, m.target ≠ M.target) :
    c'.getMetadata M.target = .ok M ∧
    (∃ r b, c'.getRepository M.target = .ok r ∧ c'.getBroadcaster M.target = .ok b ∧
      r.broadcaster = b) ∧
    c'.metadatas = c.metadatas ++ [M] ∧
    (∃ nb, c'.broadcasters = c.broadcasters ++ [nb]) ∧
    (∃ np, c'.repositoryAndMetadatas = c.repositoryAndMetadatas ++ [np]) ∧
    (∃ nr, c'.repositories = c.repositories ++ [nr]) ∧
    c'.subscribers = c.subscribers := by
  subst hc
  have hInv := inv_run ops
  have hb := broadcasters_fresh_of_metadatas_fresh hInv hfresh
  have hpt := pairs_fresh_of_metadatas_fresh hInv hfresh
  have hpne : ∀ rm ∈ (run ops).repositoryAndMetadatas, rm.metadata ≠ M := by
    intro rm hrm heq
    exact hpt rm hrm (by rw [heq])
  rw [Connection.addMetadatas_singleton_fresh _ _ hb] at hc'
  subst hc'
  refine ⟨?_, ?_, rfl, ⟨_, rfl⟩, ⟨_, rfl⟩, ?_, rfl⟩
  · simp [Connection.getMetadata, List.find?_append, find?_metadatas_none hfresh]
  · refine ⟨{ metadata := M,
              broadcaster :=
                { subscribers := (run ops).subscribers, entityClass := M.target } },
            { subscribers := (run ops).subscribers, entityClass := M.target },
            ?_, ?_, rfl⟩
    · rw [getRepository_eq_ok_iff]
      refine ⟨M, ?_, ?_⟩
      · simp [Connection.getMetadata, List.find?_append, find?_metadatas_none hfresh]
      · refine ⟨{ repository :=
                    { metadata := M,
                      broadcaster :=
                        { subscribers := (run ops).subscribers, entityClass := M.target } },
                  metadata := M }, ?_, rfl⟩
        simp [List.find?_append, find?_pairs_none hpne]
    · simp [Connection.getBroadcaster, List.find?_append, find?_broadcasters_none hb]
  · refine ⟨{ metadata := M,
              broadcaster :=
                { subscribers := (run ops).subscribers, entityClass := M.target } }, ?_⟩
    simp [Connection.repositories]

/-- Witness for C4: registering target `7` on the empty registry. -/
theorem addMetadatas_registration_effects_witness :
    (initialConnection.addMetadatas [{ id := 0, target := 7 }]).1.getMetadata 7 =
      .ok { id := 0, target := 7 } ∧
    (∃ r b,
      (initialConnection.addMetadatas [{ id := 0, target := 7 }]).1.getRepository 7 =
          .ok r ∧
        (initialConnection.addMetadatas [{ id := 0, target := 7 }]).1.getBroadcaster 7 =
          .ok b ∧
        r.broadcaster = b) ∧
    (initialConnection.addMetadatas [{ id := 0, target := 7 }]).1.metadatas =
      initialConnection.metadatas ++ [{ id := 0, target := 7 }] ∧
    (∃ nb, (initialConnection.addMetadatas [{ id := 0, target := 7 }]).1.broadcasters =
      initialConnection.broadcasters ++ [nb]) ∧
    (∃ np,
      (initialConnection.addMetadatas [{ id := 0, target := 7 }]).1.repositoryAndMetadatas =
        initialConnection.repositoryAndMetadatas ++ [np]) ∧
    (∃ nr, (initialConnection.addMetadatas [{ id := 0, target := 7 }]).1.repositories =
      initialConnection.repositories ++ [nr]) ∧
    (initialConnection.addMetadatas [{ id := 0, target := 7 }]).1.subscribers =
      initialConnection.subscribers :=
  addMetadatas_registration_effects [] { id := 0, target := 7 } initialConnection
    (initialConnection.addMetadatas [{ id := 0, target := 7 }]).1 rfl rfl
    (by
      intro m hm
      exact absurd hm (List.not_mem_nil m))

/-- C5: registering the same target twice (on a state not yet holding it)
keeps both `{metadata, repository}` pairs as independent entries, and
`getRepository(target)` returns the repository of the first-registered pair. -/
theorem duplicate_target_first_registered_wins (ops : List Op)
    (M₁ M₂ : EntityMetadata) (h₁₂ : M₁.target = M₂.target)
    (hfresh : ∀ m ∈ (run ops).metadatas, m.target ≠ M₁.target)
    (c₂ : Connection)
    (hc₂ : c₂ = (((run ops).addMetadatas [M₁]).1.addMetadatas [M₂]).1) :
    ∃ p₁ p₂, c₂.repositoryAndMetadatas =
        (run ops).repositoryAndMetadatas ++ [p₁, p₂] ∧
      p₁.metadata = M₁ ∧ p₂.metadata = M₂ ∧
      c₂.getRepository M₁.target = .ok p₁.repository := by
  have hInv := inv_run ops
  have hpt := pairs_fresh_of_metadatas_fresh hInv hfresh
  have hpne : ∀ rm ∈ (run ops).repositoryAndMetadatas, rm.metadata ≠ M₁ := by
    intro rm hrm heq
    exact hpt rm hrm (by rw [heq])
  obtain ⟨p₁, hp₁M, e₁⟩ := addMetadatas_singleton_shape (run ops) M₁
  obtain ⟨p₂, hp₂M, e₂⟩ :=
    addMetadatas_singleton_shape (((run ops).addMetadatas [M₁]).1) M₂
  rw [e₂, e₁] at hc₂
  subst hc₂
  refine ⟨p₁, p₂, ?_, hp₁M, hp₂M, ?_⟩
  · simp
  · rw [getRepository_eq_ok_iff]
    refine ⟨M₁, ?_, p₁, ?_, rfl⟩
    · simp [Connection.getMetadata, List.find?_append, find?_metadatas_none hfresh]
    · simp [List.find?_append, find?_pairs_none hpne, hp₁M]

/-- Witness for C5: targets `7` registered twice on the empty registry. -/
theorem duplicate_target_first_registered_wins_witness :
    ∃ p₁ p₂,
      ((((run []).addMetadatas [{ id := 0, target := 7 }]).1.addMetadatas
          [{ id := 1, target := 7 }]).1).repositoryAndMetadatas =
        (run []).repositoryAndMetadatas ++ [p₁, p₂] ∧
      p₁.metadata = { id := 0, target := 7 } ∧
      p₂.metadata = { id := 1, target := 7 } ∧
      ((((run []).addMetadatas [{ id := 0, target := 7 }]).1.addMetadatas
          [{ id := 1, target := 7 }]).1).getRepository 7 = .ok p₁.repository :=
  duplicate_target_first_registered_wins [] { id := 0, target := 7 }
    { id := 1, target := 7 } rfl
    (by
      intro m hm
      exact absurd hm (List.not_mem_nil m))
    ((((run []).addMetadatas [{ id := 0, target := 7 }]).1.addMetadatas
        [{ id := 1, target := 7 }]).1) rfl

end Typeorm
